import Mathlib

/-!
# 1password-kubeconfig: normalisation, synchronisation and exec-credential response

A shallow embedding of `main.go`.

* Go strings that reach the program come out of `encoding/json`, hence are valid
  UTF-8; they are modelled as Lean `String`s (sequences of runes).
* `strings.ToLower` needs the Unicode case table for runes outside ASCII.  That table
  is not part of the repository, so it is the parameter `uc : Char → Char`; ASCII
  letters are lower-cased concretely.
* A Go run-time panic and `log.Fatalf` both end the process; they are the two
  constructors of `Fault`.
* The `kubectl` and `op` executables are external: they are parameters
  (`Kubectl`, `Op`).  The list of commands run so far is kept as a ghost trace.
-/

namespace OpKubeconfig

/-! ## Go standard-library string functions used by the program -/

/-- Rune-wise `unicode.ToLower`: ASCII upper-case letters concretely, other ASCII
runes unchanged, runes outside ASCII through the case table `uc`. -/
def toLowerRune (uc : Char → Char) (c : Char) : Char :=
  if 65 ≤ c.toNat ∧ c.toNat ≤ 90 then Char.ofNat (c.toNat + 32)
  else if c.toNat < 128 then c
  else uc c

/-- Go `strings.ToLower`. -/
def toLower (uc : Char → Char) (s : String) : String :=
  String.mk (s.data.map (toLowerRune uc))

/-- Go `unicode.IsSpace`: the runes with the Unicode White_Space property. -/
def isSpace (c : Char) : Bool :=
  let n := c.toNat
  (9 ≤ n && n ≤ 13) || n == 32 || n == 0x85 || n == 0xA0 || n == 0x1680 ||
  (0x2000 ≤ n && n ≤ 0x200A) || n == 0x2028 || n == 0x2029 || n == 0x202F ||
  n == 0x205F || n == 0x3000

/-- Go `strings.TrimSpace`: drop leading and trailing white space. -/
def trimSpace (s : String) : String :=
  String.mk ((s.data.dropWhile isSpace).reverse.dropWhile isSpace).reverse

/-- Go `strings.ReplaceAll(s, old, new)` for a pattern `old` of exactly one rune:
every occurrence of that rune is replaced by the rune `new`. -/
def replaceAllRune (s : String) (old new : Char) : String :=
  String.mk (s.data.map (fun c => if c = old then new else c))

/-! ## Faults -/

/-- The two ways the process ends abnormally. -/
inductive Fault where
  /-- A Go run-time panic, e.g. index out of range. -/
  | panic (msg : String)
  /-- The process ended through `log.Fatalf` with this message. -/
  | fatal (msg : String)
  deriving DecidableEq, Repr

/-- The panic of `s[0]` on an empty string. -/
def indexPanic : Fault :=
  .panic "runtime error: index out of range [0] with length 0"

/-! ## Data model (`main.go` lines 13-41) -/

/-- Go `type ConfigSecret struct`. -/
structure ConfigSecret where
  Id : String := ""
  Name : String := ""
  Server : String := ""
  InsecureSkipTLSVerify : Bool := false
  CertificateAuthority : String := ""
  ClientCertificate : String := ""
  ClientKey : String := ""
  deriving DecidableEq, Repr

/-- Go `type SecretField struct`. -/
structure SecretField where
  Id : String := ""
  Value : String := ""
  Label : String := ""
  deriving DecidableEq, Repr

/-- Go `type Secret struct`. -/
structure Secret where
  Id : String := ""
  Title : String := ""
  Version : Int := 0
  Fields : List SecretField := []
  deriving DecidableEq, Repr

/-! ## Pure helpers (`main.go` lines 256-269) -/

/-- Go `func slugify`: `strings.ReplaceAll(strings.ToLower(s), " ", "-")`. -/
def slugify (uc : Char → Char) (s : String) : String :=
  replaceAllRune (toLower uc s) ' ' '-'

/-- Go `func toBool`.  `s[0]` on an empty string is a run-time panic.  The program
compares the first byte with the ASCII bytes `t`, `y`, `1`; in valid UTF-8 the first
byte is one of these exactly when the first rune is. -/
def toBool (uc : Char → Char) (s : String) : Except Fault Bool :=
  let s := trimSpace s
  let s := toLower uc s
  match s.data with
  | [] => .error indexPanic
  | c :: _ => if c = 't' ∨ c = 'y' ∨ c = '1' then .ok true else .ok false

/-- Go `func (s ConfigSecret) ConfigName`: `fmt.Sprintf("%s:op", slugify(s.Name))`. -/
def ConfigSecret.ConfigName (uc : Char → Char) (s : ConfigSecret) : String :=
  slugify uc s.Name ++ ":op"

/-- One iteration of the `for _, field := range s.Fields` loop of
`Secret.ConfigSecret`: the `switch slugify(field.Label)`. -/
def configSecretStep (uc : Char → Char) (configSecret : ConfigSecret) (field : SecretField) :
    Except Fault ConfigSecret :=
  let l := slugify uc field.Label
  if l = "server" then
    .ok { configSecret with Server := field.Value }
  else if l = "insecure_skip_tls_verify" ∨ l = "insecure skip tls verify" then
    match toBool uc field.Value with
    | .ok b => .ok { configSecret with InsecureSkipTLSVerify := b }
    | .error f => .error f
  else if l = "certificate-authority-data" ∨ l = "certificate_authority" ∨
      l = "certificate-authority" ∨ l = "ca" then
    .ok { configSecret with CertificateAuthority := field.Value }
  else if l = "client-certificate" ∨ l = "client-certificate-data" ∨
      l = "client_certificate" ∨ l = "cert" then
    .ok { configSecret with ClientCertificate := field.Value }
  else if l = "client-key" ∨ l = "client-key-data" ∨ l = "client_key" ∨ l = "key" then
    .ok { configSecret with ClientKey := field.Value }
  else
    .ok configSecret

/-- The field loop of `Secret.ConfigSecret`, from the record built so far. -/
def configSecretLoop (uc : Char → Char) :
    ConfigSecret → List SecretField → Except Fault ConfigSecret
  | configSecret, [] => .ok configSecret
  | configSecret, field :: rest =>
    match configSecretStep uc configSecret field with
    | .ok c => configSecretLoop uc c rest
    | .error f => .error f

/-- Go `func (s Secret) ConfigSecret`: starts from the zero value
(`var configSecret ConfigSecret`) and runs the field loop.  Nothing else is assigned. -/
def Secret.ConfigSecret (uc : Char → Char) (s : Secret) : Except Fault ConfigSecret :=
  configSecretLoop uc {} s.Fields

/-! ## External collaborators and process state -/

/-- The `kubectl` executable as seen through `exec.Command(...).Run()`: from the state
of the outside world (the configuration file, and anything else `kubectl` depends on)
and the argument vector, the state afterwards and the returned error (`none` is Go
`nil`).  It is the configuration-file collaborator and is not part of the repository. -/
structure Kubectl (W : Type) where
  run : W → List String → W × Option String

/-- Result of running `op` and decoding its standard output with `json.Unmarshal`. -/
inductive OpResult (α : Type) where
  /-- Both `cmd.Output()` and `json.Unmarshal` returned a `nil` error. -/
  | ok (a : α)
  /-- The error returned by `cmd.Output()`. -/
  | execFailed (err : String)
  /-- The error returned by `json.Unmarshal`. -/
  | parseFailed (err : String)

/-- The `op` executable (secret-store collaborator, not part of the repository),
together with the JSON decoding of what it prints. -/
structure Op where
  /-- Stands for `op list items --tags tag`. -/
  listItems : String → OpResult (List Secret)
  /-- Stands for `op item get name --format json`. -/
  itemGet : String → OpResult Secret

/-- State of one process run: the outside world, the argument vectors of the commands
run so far (a ghost trace, oldest first) and what was written to standard output. -/
structure Proc (W : Type) where
  world : W
  calls : List (List String)
  stdout : String

/-- How a procedure ends: it returns, or the process ends with a fault.  Either way
the process state reached is kept. -/
inductive Result (W : Type) where
  | done (p : Proc W)
  | halted (f : Fault) (p : Proc W)

/-- Go `cmd.Run()` for a `kubectl` command with argument vector `args`. -/
def cmdRun {W : Type} (k : Kubectl W) (p : Proc W) (args : List String) :
    Proc W × Option String :=
  ({ p with world := (k.run p.world args).1, calls := p.calls ++ [args] },
   (k.run p.world args).2)

/-! ## The update flow (`main.go` lines 139-189, 214-236) -/

/-- The argument vector `cmd.Args` built by `setCluster`. -/
def setClusterArgs (uc : Char → Char) (secret : ConfigSecret) : List String :=
  let args := ["kubectl", "config", "set-cluster", secret.ConfigName uc,
    "--server=" ++ secret.Server]
  if secret.CertificateAuthority ≠ "" then
    args ++ ["--certificate-authority=" ++ secret.CertificateAuthority]
  else args

/-- Go `func setCluster`. -/
def setCluster {W : Type} (uc : Char → Char) (k : Kubectl W) (p : Proc W)
    (secret : ConfigSecret) : Result W :=
  match cmdRun k p (setClusterArgs uc secret) with
  | (p1, none) => .done p1
  | (p1, some err) => .halted (.fatal ("Failed to set cluster: " ++ err)) p1

/-- The argument vector built by `setContext`. -/
def setContextArgs (uc : Char → Char) (secret : ConfigSecret) : List String :=
  ["kubectl", "config", "set-context", secret.ConfigName uc,
    "--cluster=" ++ secret.ConfigName uc, "--user=" ++ secret.ConfigName uc]

/-- Go `func setContext`. -/
def setContext {W : Type} (uc : Char → Char) (k : Kubectl W) (p : Proc W)
    (secret : ConfigSecret) : Result W :=
  match cmdRun k p (setContextArgs uc secret) with
  | (p1, none) => .done p1
  | (p1, some err) => .halted (.fatal ("Failed to set context: " ++ err)) p1

/-- The argument vector built by `setCredentials`. -/
def setCredentialsArgs (uc : Char → Char) (secret : ConfigSecret) : List String :=
  ["kubectl", "config", "set-credentials", secret.ConfigName uc,
    "--exec-command=1password-kubeconfig",
    "--exec-api-version=client.authentication.k8s.io/v1",
    "--exec-arg=auth",
    "--exec-arg=" ++ secret.Id]

/-- Go `func setCredentials`. -/
def setCredentials {W : Type} (uc : Char → Char) (k : Kubectl W) (p : Proc W)
    (secret : ConfigSecret) : Result W :=
  match cmdRun k p (setCredentialsArgs uc secret) with
  | (p1, none) => .done p1
  | (p1, some err) =>
    .halted (.fatal ("Failed to set credentials with exec-command: " ++ err)) p1

/-- The loop `for _, secret := range secrets` of `updateKubeConfig`. -/
def updateLoop {W : Type} (uc : Char → Char) (k : Kubectl W) :
    Proc W → List ConfigSecret → Result W
  | p, [] => .done p
  | p, secret :: rest =>
    match setCluster uc k p secret with
    | .halted f p1 => .halted f p1
    | .done p1 =>
      match setCredentials uc k p1 secret with
      | .halted f p2 => .halted f p2
      | .done p2 =>
        match setContext uc k p2 secret with
        | .halted f p3 => .halted f p3
        | .done p3 => updateLoop uc k p3 rest

/-- The conversion loop of `findSecretsWithTag`:
`configSecrets = append(configSecrets, secret.ConfigSecret())`. -/
def convertSecrets (uc : Char → Char) : List Secret → Except Fault (List ConfigSecret)
  | [] => .ok []
  | secret :: rest =>
    match secret.ConfigSecret uc with
    | .error f => .error f
    | .ok c =>
      match convertSecrets uc rest with
      | .error f => .error f
      | .ok cs => .ok (c :: cs)

/-- Go `func findSecretsWithTag`. -/
def findSecretsWithTag (uc : Char → Char) (op : Op) (tag : String) :
    Except Fault (List ConfigSecret) :=
  match op.listItems tag with
  | .execFailed err => .error (.fatal ("Failed to execute \x27op\x27 command: " ++ err))
  | .parseFailed err => .error (.fatal ("Failed to parse \x27op\x27 command output: " ++ err))
  | .ok secrets => convertSecrets uc secrets

/-- Go `func getSecretByName`. -/
def getSecretByName (uc : Char → Char) (op : Op) (name : String) :
    Except Fault ConfigSecret :=
  match op.itemGet name with
  | .execFailed err => .error (.fatal ("Failed to execute \x27op\x27 command: " ++ err))
  | .parseFailed err => .error (.fatal ("Failed to parse \x27op\x27 command output: " ++ err))
  | .ok secret => secret.ConfigSecret uc

/-- Go `func updateKubeConfig`. -/
def updateKubeConfig {W : Type} (uc : Char → Char) (op : Op) (k : Kubectl W)
    (p : Proc W) (secretTag : String) : Result W :=
  match findSecretsWithTag uc op secretTag with
  | .error f => .halted f p
  | .ok secrets =>
    match updateLoop uc k p secrets with
    | .halted f p1 => .halted f p1
    | .done p1 =>
      .done { p1 with stdout := p1.stdout ++ "kubeconfig updated successfully" ++ "\n" }

/-! ## The auth flow (`main.go` lines 62-71, 191-212) -/

/-- Go `type ClientCertificate struct`. -/
structure ClientCertificate where
  ClientCertificateData : String
  ClientKeyData : String

/-- Go `type ExecCredential struct`. -/
structure ExecCredential where
  APIVersion : String
  Kind : String
  Status : ClientCertificate

/-- The runes `encoding/json` copies unchanged into a string literal when HTML
escaping is on (the default of `json.Marshal`): everything except control characters
below U+0020, the double quote, the backslash, `<`, `>`, `&`, U+2028 and U+2029. -/
def jsonSafe (c : Char) : Bool :=
  let n := c.toNat
  !(n < 0x20 || c == '"' || c == '\\' || c == '<' || c == '>' || c == '&' ||
    n == 0x2028 || n == 0x2029)

/-- What `encoding/json` writes for one rune of a string value. -/
def jsonEscape (c : Char) : List Char :=
  if jsonSafe c then [c]
  else if c = '"' then ['\\', '"']
  else if c = '\\' then ['\\', '\\']
  else if c.toNat = 8 then ['\\', 'b']
  else if c.toNat = 12 then ['\\', 'f']
  else if c = '\n' then ['\\', 'n']
  else if c = '\r' then ['\\', 'r']
  else if c = '\t' then ['\\', 't']
  else if c.toNat = 0x2028 then "\\u2028".data
  else if c.toNat = 0x2029 then "\\u2029".data
  else ['\\', 'u', '0', '0', Nat.digitChar (c.toNat / 16), Nat.digitChar (c.toNat % 16)]

/-- The JSON string literal `encoding/json` writes for a Go string. -/
def jsonString (s : String) : String :=
  String.mk ('"' :: (s.data.flatMap jsonEscape ++ ['"']))

/-- Go `json.Marshal` on a `ClientCertificate`: the fields in declaration order under
their `json:"..."` names, none of them `omitempty`. -/
def marshalClientCertificate (c : ClientCertificate) : String :=
  "\x7b\"clientCertificateData\":" ++ jsonString c.ClientCertificateData ++
  ",\"clientKeyData\":" ++ jsonString c.ClientKeyData ++ "\x7d"

/-- Go `json.Marshal` on an `ExecCredential`; it returns no error for this type. -/
def marshalExecCredential (e : ExecCredential) : String :=
  "\x7b\"apiVersion\":" ++ jsonString e.APIVersion ++
  ",\"kind\":" ++ jsonString e.Kind ++
  ",\"status\":" ++ marshalClientCertificate e.Status ++ "\x7d"

/-- Go `func authCommand`. -/
def authCommand {W : Type} (uc : Char → Char) (op : Op) (p : Proc W)
    (secretName : String) : Result W :=
  match getSecretByName uc op secretName with
  | .error f => .halted f p
  | .ok secret =>
    let execCred : ExecCredential :=
      { APIVersion := "client.authentication.k8s.io/v1"
        Kind := "ExecCredential"
        Status :=
          { ClientCertificateData := secret.ClientCertificate
            ClientKeyData := secret.ClientKey } }
    let jsonOutput := marshalExecCredential execCred
    .done { p with stdout := p.stdout ++ jsonOutput ++ "\n" }

/-! ## Vocabulary for stating properties of a run -/

/-- The process state a procedure ended in. -/
def Result.proc {W : Type} : Result W → Proc W
  | .done p => p
  | .halted _ p => p

/-- The fault a procedure ended with, `none` when it returned. -/
def Result.fault {W : Type} : Result W → Option Fault
  | .done _ => none
  | .halted f _ => some f

/-- The three argument vectors one iteration of the update loop hands to `kubectl`,
in program order. -/
def syncArgs (uc : Char → Char) (secret : ConfigSecret) : List (List String) :=
  [setClusterArgs uc secret, setCredentialsArgs uc secret, setContextArgs uc secret]

/-- The argument vectors of a whole update loop in which no command fails. -/
def syncCalls (uc : Char → Char) (secrets : List ConfigSecret) : List (List String) :=
  secrets.flatMap (syncArgs uc)

/-- The world after `kubectl` has run the commands `cmds` one after the other. -/
def worldAfter {W : Type} (k : Kubectl W) (w : W) (cmds : List (List String)) : W :=
  cmds.foldl (fun w args => (k.run w args).1) w

/-- Whether `kubectl`, started in world `w`, returns a `nil` error for every one of
the commands `cmds` run one after the other. -/
def allSucceed {W : Type} (k : Kubectl W) : W → List (List String) → Bool
  | _, [] => true
  | w, args :: rest => (k.run w args).2.isNone && allSucceed k (k.run w args).1 rest

/-- A record with its client certificate and client key blanked. -/
def redact (secret : ConfigSecret) : ConfigSecret :=
  { secret with ClientCertificate := "", ClientKey := "" }

/-- The value `v` when the command-line argument `arg` is `flag=v`. -/
def flagValue (flag : String) (arg : String) : Option String :=
  if (flag.data ++ ['=']).isPrefixOf arg.data then
    some (String.mk (arg.data.drop (flag.data.length + 1)))
  else none

/-- The values given to `flag` in a list of command-line arguments, in order. -/
def flagValues (flag : String) (args : List String) : List String :=
  args.filterMap (flagValue flag)

/-- Whether every rune of `s` is written unescaped by `encoding/json`. -/
def jsonPlain (s : String) : Bool :=
  s.data.all jsonSafe

/-! ## The configuration file as three overwrite maps -/

/-- Modelled from the spec: the configuration file behind `kubectl config`, which is
not part of the repository, as three maps from resource name to the entry stored
under it (cluster, user/credential and context entries).  An entry is the list of
settings the writing command carried. -/
structure KubeConfig where
  clusters : String → Option (List String)
  users : String → Option (List String)
  contexts : String → Option (List String)

/-- Modelled from the spec: `kubectl config set-cluster|set-credentials|set-context
NAME settings...` as an upsert that overwrites the entry named `NAME` of the matching
map with the settings of the command and always succeeds; any other command is
rejected and changes nothing. -/
def overwriteRun (cfg : KubeConfig) (args : List String) : KubeConfig × Option String :=
  match args with
  | _ :: _ :: sub :: name :: settings =>
    if sub = "set-cluster" then
      ({ cfg with clusters := Function.update cfg.clusters name (some settings) }, none)
    else if sub = "set-credentials" then
      ({ cfg with users := Function.update cfg.users name (some settings) }, none)
    else if sub = "set-context" then
      ({ cfg with contexts := Function.update cfg.contexts name (some settings) }, none)
    else (cfg, some "unknown command")
  | _ => (cfg, some "unknown command")

/-- Modelled from the spec: the configuration-file collaborator with overwrite
semantics. -/
def overwriteKubectl : Kubectl KubeConfig :=
  { run := overwriteRun }

/-- A `kubectl` that never fails and has no state. -/
def okKubectl : Kubectl Unit :=
  { run := fun _ _ => ((), none) }

/-- A `kubectl` whose state counts the commands run so far and that fails, with
error `err`, exactly the command run when the count is `n`. -/
def failAt (n : Nat) (err : String) : Kubectl Nat :=
  { run := fun w _ => (w + 1, if w = n then some err else none) }

/-- An `op` that answers every query with the given secrets. -/
def fixedOp (secrets : List Secret) : Op :=
  { listItems := fun _ => .ok secrets
    itemGet := fun _ =>
      match secrets with
      | [] => .execFailed "not found"
      | s :: _ => .ok s }

/-- The write a command makes to the map served by subcommand `sub0` under
`overwriteRun`: the name and the new entry, or `none` when the command does not write
to that map. -/
def writeOf (sub0 : String) (args : List String) : Option (String × Option (List String)) :=
  match args with
  | _ :: _ :: sub :: name :: settings => if sub = sub0 then some (name, some settings) else none
  | _ => none

/-- Apply an optional write to a map. -/
def applyWrite {V : Type} (f : String → V) (o : Option (String × V)) : String → V :=
  match o with
  | some w => Function.update f w.1 w.2
  | none => f

/-- The configuration file with no entry at all. -/
def emptyConfig : KubeConfig :=
  { clusters := fun _ => none, users := fun _ => none, contexts := fun _ => none }

/-! ## Example data -/

/-- A raw record titled "Prod" with `server`, `cert` and `key` fields. -/
def prodSecret : Secret :=
  { Id := "abc123", Title := "Prod",
    Fields := [{ Label := "server", Value := "https://prod.example" },
      { Label := "cert", Value := "CERTDATA" }, { Label := "key", Value := "KEYDATA" }] }

/-- A raw record titled "Staging" with `server`, `cert` and `key` fields. -/
def stagingSecret : Secret :=
  { Id := "def456", Title := "Staging",
    Fields := [{ Label := "server", Value := "https://staging.example" },
      { Label := "cert", Value := "CERT2" }, { Label := "key", Value := "KEY2" }] }

/-- Three normalised records used to exercise the update loop. -/
def sampleRecords : List ConfigSecret :=
  [{ Id := "id1", Name := "My Cluster", Server := "https://one.example",
     CertificateAuthority := "CA1", ClientCertificate := "CERT1", ClientKey := "KEY1" },
   { Id := "id2", Name := "Prod", Server := "https://two.example" },
   { Id := "id3", Name := "Staging", Server := "https://three.example" }]

/-- The records of `sampleRecords` with other client certificates and keys. -/
def sampleRecordsOtherKeys : List ConfigSecret :=
  [{ Id := "id1", Name := "My Cluster", Server := "https://one.example",
     CertificateAuthority := "CA1", ClientCertificate := "OTHERCERT", ClientKey := "OTHERKEY" },
   { Id := "id2", Name := "Prod", Server := "https://two.example", ClientKey := "K" },
   { Id := "id3", Name := "Staging", Server := "https://three.example",
     ClientCertificate := "C" }]

/-! ## Normalisation: supporting lemmas -/

theorem configSecretStep_keeps_id_name (uc : Char → Char) (c c1 : ConfigSecret)
    (field : SecretField) (h : configSecretStep uc c field = .ok c1) :
    c1.Id = c.Id ∧ c1.Name = c.Name := by
  unfold configSecretStep at h
  simp only at h
  split_ifs at h
  · cases h; exact ⟨rfl, rfl⟩
  · cases hb : toBool uc field.Value with
    | error f => rw [hb] at h; cases h
    | ok b => rw [hb] at h; cases h; exact ⟨rfl, rfl⟩
  · cases h; exact ⟨rfl, rfl⟩
  · cases h; exact ⟨rfl, rfl⟩
  · cases h; exact ⟨rfl, rfl⟩
  · cases h; exact ⟨rfl, rfl⟩

theorem configSecretLoop_keeps_id_name (uc : Char → Char) (fields : List SecretField) :
    ∀ c c1 : ConfigSecret, configSecretLoop uc c fields = .ok c1 →
      c1.Id = c.Id ∧ c1.Name = c.Name := by
  induction fields with
  | nil =>
    intro c c1 h
    simp only [configSecretLoop] at h
    cases h
    exact ⟨rfl, rfl⟩
  | cons field rest ih =>
    intro c c1 h
    simp only [configSecretLoop] at h
    cases hs : configSecretStep uc c field with
    | error f => rw [hs] at h; cases h
    | ok c2 =>
      rw [hs] at h
      have h1 := configSecretStep_keeps_id_name uc c c2 field hs
      have h2 := ih c2 c1 h
      exact ⟨h2.1.trans h1.1, h2.2.trans h1.2⟩

/-- The step of the field loop reads a field only through its value and the slug of
its label. -/
theorem configSecretStep_congr (uc : Char → Char) (c : ConfigSecret) (f g : SecretField)
    (hv : f.Value = g.Value) (hl : slugify uc f.Label = slugify uc g.Label) :
    configSecretStep uc c f = configSecretStep uc c g := by
  unfold configSecretStep
  simp only [hv, hl]

theorem configSecretLoop_congr (uc : Char → Char) (fs gs : List SecretField)
    (h : List.Forall₂
      (fun f g => f.Value = g.Value ∧ slugify uc f.Label = slugify uc g.Label) fs gs) :
    ∀ c, configSecretLoop uc c fs = configSecretLoop uc c gs := by
  induction h with
  | nil => intro c; rfl
  | cons hfg _ ih =>
    intro c
    simp only [configSecretLoop]
    rw [configSecretStep_congr uc c _ _ hfg.1 hfg.2]
    split
    · exact ih _
    · rfl

/-! ## Normalisation: the claims -/

/-- C1 (code defect): `Secret.ConfigSecret` starts from the zero value and assigns only
the five field-derived attributes, so the record it returns always has an empty `Id`
and an empty `Name`, whatever the identifier and title of the raw record.  At the
records titled "Prod" and "Staging" the update flow therefore names all six writes
`:op` (not `prod:op` and `staging:op`) and passes an empty identifier to `auth`. -/
theorem configSecret_leaves_id_and_name_empty (uc : Char → Char) :
    (∀ (s : Secret) (c : ConfigSecret), s.ConfigSecret uc = .ok c → c.Id = "" ∧ c.Name = "") ∧
    prodSecret.ConfigSecret uc =
      .ok { Id := "", Name := "", Server := "https://prod.example",
            ClientCertificate := "CERTDATA", ClientKey := "KEYDATA" } ∧
    (updateKubeConfig uc (fixedOp [prodSecret, stagingSecret]) okKubectl
        ⟨(), [], ""⟩ "kubeconfig").proc.calls =
      [["kubectl", "config", "set-cluster", ":op", "--server=https://prod.example"],
       ["kubectl", "config", "set-credentials", ":op", "--exec-command=1password-kubeconfig",
        "--exec-api-version=client.authentication.k8s.io/v1", "--exec-arg=auth", "--exec-arg="],
       ["kubectl", "config", "set-context", ":op", "--cluster=:op", "--user=:op"],
       ["kubectl", "config", "set-cluster", ":op", "--server=https://staging.example"],
       ["kubectl", "config", "set-credentials", ":op", "--exec-command=1password-kubeconfig",
        "--exec-api-version=client.authentication.k8s.io/v1", "--exec-arg=auth", "--exec-arg="],
       ["kubectl", "config", "set-context", ":op", "--cluster=:op", "--user=:op"]] := by
  refine ⟨?_, rfl, rfl⟩
  intro s c h
  exact configSecretLoop_keeps_id_name uc s.Fields {} c h

/-- C2 (code defect): `toBool` indexes `s[0]` without checking that the trimmed string
is non-empty, so it panics on the empty string and on a string of white space only,
where the claim says it returns false and never fails.  It panics exactly on those
inputs; on every other input it returns whether the first rune of the trimmed,
lower-cased string is `t`, `y` or `1`. -/
theorem toBool_panics_on_blank (uc : Char → Char) :
    toBool uc "" = .error indexPanic ∧
    toBool uc " \t " = .error indexPanic ∧
    (∀ s : String, (trimSpace s).data = [] → toBool uc s = .error indexPanic) ∧
    (∀ (s : String) (c : Char) (rest : List Char),
      (toLower uc (trimSpace s)).data = c :: rest →
      toBool uc s = .ok (decide (c = 't' ∨ c = 'y' ∨ c = '1'))) ∧
    toBool uc "true" = .ok true ∧ toBool uc "Yes" = .ok true ∧ toBool uc "1" = .ok true ∧
    toBool uc "true " = .ok true ∧ toBool uc "false" = .ok false ∧
    toBool uc "no" = .ok false := by
  refine ⟨rfl, rfl, ?_, ?_, rfl, rfl, rfl, rfl, rfl, rfl⟩
  · intro s hs
    have h : (toLower uc (trimSpace s)).data = [] := by
      simp [toLower, hs]
    simp only [toBool, h]
  · intro s c rest h
    simp only [toBool, h]
    by_cases hc : c = 't' ∨ c = 'y' ∨ c = '1'
    · simp [hc]
    · simp [hc]

/-- C3 (code defect): the `switch` of `Secret.ConfigSecret` lists the labels
`insecure_skip_tls_verify` and `insecure skip tls verify`; the second can never equal a
slug (a slug has no space) and the hyphenated form is not listed.  A field whose label
canonicalises to `insecure-skip-tls-verify` is therefore ignored: whatever its value,
also "true", the record keeps `InsecureSkipTLSVerify = false`.  Only the underscore
spelling sets the flag. -/
theorem insecure_flag_label_ignored (uc : Char → Char) :
    (Secret.ConfigSecret uc
        { Fields := [{ Label := "insecure-skip-tls-verify", Value := "true" }] } =
      .ok { InsecureSkipTLSVerify := false }) ∧
    (Secret.ConfigSecret uc
        { Fields := [{ Label := "Insecure Skip TLS Verify", Value := "true" }] } =
      .ok { InsecureSkipTLSVerify := false }) ∧
    (Secret.ConfigSecret uc
        { Fields := [{ Label := "insecure skip tls verify", Value := "true" }] } =
      .ok { InsecureSkipTLSVerify := false }) ∧
    (∀ (label v : String), slugify uc label = "insecure-skip-tls-verify" →
      Secret.ConfigSecret uc { Fields := [{ Label := label, Value := v }] } = .ok {}) ∧
    (Secret.ConfigSecret uc
        { Fields := [{ Label := "insecure_skip_tls_verify", Value := "true" }] } =
      .ok { InsecureSkipTLSVerify := true }) := by
  refine ⟨rfl, rfl, rfl, ?_, rfl⟩
  intro label v h
  simp only [Secret.ConfigSecret, configSecretLoop, configSecretStep, h]
  rfl

/-- C10: two raw records whose field lists have the same length, pairwise equal values
and, position by position, labels with the same canonical form (lower-cased, spaces
replaced by hyphens) normalise to the same result.  The labels "Client Key",
"client-key" and "CLIENT-KEY" all set `ClientKey`. -/
theorem configSecret_label_insensitive (uc : Char → Char) (s1 s2 : Secret)
    (h : List.Forall₂
      (fun f g => f.Value = g.Value ∧ slugify uc f.Label = slugify uc g.Label)
      s1.Fields s2.Fields) :
    s1.ConfigSecret uc = s2.ConfigSecret uc ∧
    (∀ v : String,
      Secret.ConfigSecret uc { Fields := [{ Label := "Client Key", Value := v }] } =
        .ok { ClientKey := v } ∧
      Secret.ConfigSecret uc { Fields := [{ Label := "client-key", Value := v }] } =
        .ok { ClientKey := v } ∧
      Secret.ConfigSecret uc { Fields := [{ Label := "CLIENT-KEY", Value := v }] } =
        .ok { ClientKey := v }) := by
  refine ⟨configSecretLoop_congr uc _ _ h {}, ?_⟩
  intro v
  exact ⟨rfl, rfl, rfl⟩

/-- Witness for C10: a record labelled "Client Key", "SERVER" and one labelled
"client-key", "server", with the same values. -/
theorem configSecret_label_insensitive_witness :
    Secret.ConfigSecret id
        { Id := "a", Title := "A",
          Fields := [{ Label := "Client Key", Value := "K" }, { Label := "SERVER", Value := "u" }] } =
      Secret.ConfigSecret id
        { Id := "b", Title := "B",
          Fields := [{ Label := "client-key", Value := "K" }, { Label := "server", Value := "u" }] } ∧
    Secret.ConfigSecret id
        { Id := "a", Title := "A",
          Fields := [{ Label := "Client Key", Value := "K" }, { Label := "SERVER", Value := "u" }] } =
      .ok { Server := "u", ClientKey := "K" } :=
  ⟨(configSecret_label_insensitive id _ _
      (List.Forall₂.cons ⟨rfl, by decide⟩ (List.Forall₂.cons ⟨rfl, by decide⟩ List.Forall₂.nil))).1,
    rfl⟩

/-! ## Synchronisation: supporting lemmas -/

theorem setCluster_eq {W : Type} (uc : Char → Char) (k : Kubectl W) (p : Proc W)
    (r : ConfigSecret) :
    setCluster uc k p r =
      match (k.run p.world (setClusterArgs uc r)).2 with
      | none => .done ⟨(k.run p.world (setClusterArgs uc r)).1,
          p.calls ++ [setClusterArgs uc r], p.stdout⟩
      | some err => .halted (.fatal ("Failed to set cluster: " ++ err))
          ⟨(k.run p.world (setClusterArgs uc r)).1, p.calls ++ [setClusterArgs uc r], p.stdout⟩ := by
  unfold setCluster cmdRun
  cases (k.run p.world (setClusterArgs uc r)).2 <;> rfl

theorem setCredentials_eq {W : Type} (uc : Char → Char) (k : Kubectl W) (p : Proc W)
    (r : ConfigSecret) :
    setCredentials uc k p r =
      match (k.run p.world (setCredentialsArgs uc r)).2 with
      | none => .done ⟨(k.run p.world (setCredentialsArgs uc r)).1,
          p.calls ++ [setCredentialsArgs uc r], p.stdout⟩
      | some err => .halted (.fatal ("Failed to set credentials with exec-command: " ++ err))
          ⟨(k.run p.world (setCredentialsArgs uc r)).1,
            p.calls ++ [setCredentialsArgs uc r], p.stdout⟩ := by
  unfold setCredentials cmdRun
  cases (k.run p.world (setCredentialsArgs uc r)).2 <;> rfl

theorem setContext_eq {W : Type} (uc : Char → Char) (k : Kubectl W) (p : Proc W)
    (r : ConfigSecret) :
    setContext uc k p r =
      match (k.run p.world (setContextArgs uc r)).2 with
      | none => .done ⟨(k.run p.world (setContextArgs uc r)).1,
          p.calls ++ [setContextArgs uc r], p.stdout⟩
      | some err => .halted (.fatal ("Failed to set context: " ++ err))
          ⟨(k.run p.world (setContextArgs uc r)).1, p.calls ++ [setContextArgs uc r], p.stdout⟩ := by
  unfold setContext cmdRun
  cases (k.run p.world (setContextArgs uc r)).2 <;> rfl

/-- When no command fails, the update loop returns, having run exactly the commands
of `syncCalls`. -/
theorem updateLoop_of_allSucceed {W : Type} (uc : Char → Char) (k : Kubectl W)
    (rs : List ConfigSecret) :
    ∀ p : Proc W, allSucceed k p.world (syncCalls uc rs) = true →
      updateLoop uc k p rs =
        .done ⟨worldAfter k p.world (syncCalls uc rs), p.calls ++ syncCalls uc rs, p.stdout⟩ := by
  induction rs with
  | nil =>
    intro p _
    simp [updateLoop, syncCalls, worldAfter]
  | cons r rest ih =>
    intro p h
    simp only [syncCalls, List.flatMap_cons, syncArgs, List.cons_append, List.nil_append,
      allSucceed, Bool.and_eq_true, Option.isNone_iff_eq_none] at h
    obtain ⟨h1, h2, h3, h4⟩ := h
    simp only [updateLoop, setCluster_eq, h1, setCredentials_eq, h2, setContext_eq, h3]
    rw [ih _ h4]
    simp [syncCalls, syncArgs, worldAfter]

/-- The update loop over `pre ++ post` runs the loop over `pre` and, when that
returns, the loop over `post` from the state reached. -/
theorem updateLoop_append {W : Type} (uc : Char → Char) (k : Kubectl W)
    (pre post : List ConfigSecret) :
    ∀ p : Proc W, updateLoop uc k p (pre ++ post) =
      match updateLoop uc k p pre with
      | .done p1 => updateLoop uc k p1 post
      | .halted f p1 => .halted f p1 := by
  induction pre with
  | nil => intro p; rfl
  | cons r rest ih =>
    intro p
    simp only [List.cons_append, updateLoop]
    cases setCluster uc k p r with
    | halted f p1 => rfl
    | done p1 =>
      simp only
      cases setCredentials uc k p1 r with
      | halted f p2 => rfl
      | done p2 =>
        simp only
        cases setContext uc k p2 r with
        | halted f p3 => rfl
        | done p3 => exact ih p3

theorem syncCalls_length (uc : Char → Char) (rs : List ConfigSecret) :
    (syncCalls uc rs).length = 3 * rs.length := by
  induction rs with
  | nil => rfl
  | cons r rest ih =>
    simp only [syncCalls, List.flatMap_cons, List.length_append, List.length_cons] at ih ⊢
    simp only [syncArgs, List.length_cons, List.length_nil]
    omega

theorem syncArgs_redact (uc : Char → Char) (r : ConfigSecret) :
    syncArgs uc (redact r) = syncArgs uc r := rfl

/-- The update loop reads a record only through the three argument vectors of
`syncArgs`. -/
theorem updateLoop_congr {W : Type} (uc : Char → Char) (k : Kubectl W)
    (rs1 rs2 : List ConfigSecret)
    (h : List.Forall₂ (fun a b => syncArgs uc a = syncArgs uc b) rs1 rs2) :
    ∀ p : Proc W, updateLoop uc k p rs1 = updateLoop uc k p rs2 := by
  induction h with
  | nil => intro p; rfl
  | cons hab _ ih =>
    intro p
    simp only [syncArgs, List.cons.injEq, and_true] at hab
    obtain ⟨h1, h2, h3⟩ := hab
    simp only [updateLoop, setCluster, setCredentials, setContext, h1, h2, h3]
    split
    · rfl
    · split
      · rfl
      · split
        · rfl
        · exact ih _

theorem flagValue_self (flag v : String) :
    flagValue flag (flag ++ "=" ++ v) = some v := by
  have h : (flag ++ "=" ++ v).data = (flag.data ++ ['=']) ++ v.data := by
    simp [String.data_append]
  unfold flagValue
  rw [h]
  have hp : (flag.data ++ ['=']).isPrefixOf ((flag.data ++ ['=']) ++ v.data) = true := by
    rw [ List.isPrefixOf_iff_prefix]
    exact List.prefix_append _ _
  have hl : flag.data.length + 1 = (flag.data ++ ['=']).length := by simp
  rw [if_pos hp, hl, List.drop_left]

theorem updateLoop_map_redact {W : Type} (uc : Char → Char) (k : Kubectl W)
    (rs : List ConfigSecret) (p : Proc W) :
    updateLoop uc k p (rs.map redact) = updateLoop uc k p rs := by
  apply updateLoop_congr
  induction rs with
  | nil => exact List.Forall₂.nil
  | cons r rest ih => exact List.Forall₂.cons (syncArgs_redact uc r) ih

/-! ## Synchronisation: the claims -/

/-- C4: when every command the loop hands to `kubectl` succeeds, the update loop over
`n` records returns after exactly `3 n` commands, in record order; for each record
they are `set-cluster`, `set-credentials`, `set-context`, in this order, all three for
the name `ConfigName`, which is the lower-cased `Name` with every space replaced by a
hyphen followed by `:op` ("My Cluster" gives "my-cluster:op"); the context command
binds cluster and user to that same name. -/
theorem updateLoop_three_upserts_per_record {W : Type} (uc : Char → Char) (k : Kubectl W)
    (p : Proc W) (rs : List ConfigSecret)
    (hok : allSucceed k p.world (syncCalls uc rs) = true) :
    updateLoop uc k p rs =
      .done ⟨worldAfter k p.world (syncCalls uc rs), p.calls ++ syncCalls uc rs, p.stdout⟩ ∧
    syncCalls uc rs = rs.flatMap (fun r =>
      [["kubectl", "config", "set-cluster", r.ConfigName uc, "--server=" ++ r.Server] ++
          (if r.CertificateAuthority = "" then []
           else ["--certificate-authority=" ++ r.CertificateAuthority]),
       ["kubectl", "config", "set-credentials", r.ConfigName uc,
          "--exec-command=1password-kubeconfig",
          "--exec-api-version=client.authentication.k8s.io/v1",
          "--exec-arg=auth", "--exec-arg=" ++ r.Id],
       ["kubectl", "config", "set-context", r.ConfigName uc,
          "--cluster=" ++ r.ConfigName uc, "--user=" ++ r.ConfigName uc]]) ∧
    (syncCalls uc rs).length = 3 * rs.length ∧
    (∀ r : ConfigSecret, r.ConfigName uc =
      String.mk ((r.Name.data.map (toLowerRune uc)).map (fun c => if c = ' ' then '-' else c))
        ++ ":op") ∧
    ConfigSecret.ConfigName uc { Name := "My Cluster" } = "my-cluster:op" := by
  refine ⟨updateLoop_of_allSucceed uc k rs p hok, ?_, syncCalls_length uc rs, fun _ => rfl, rfl⟩
  unfold syncCalls
  congr 1
  funext r
  simp only [syncArgs, setClusterArgs, setCredentialsArgs, setContextArgs]
  by_cases h : r.CertificateAuthority = "" <;> simp [h]

/-- Witness for C4: the three sample records with a `kubectl` that never fails. -/
theorem updateLoop_three_upserts_per_record_witness :
    allSucceed okKubectl () (syncCalls id sampleRecords) = true ∧
    (updateLoop id okKubectl ⟨(), [], ""⟩ sampleRecords).proc.calls =
      [["kubectl", "config", "set-cluster", "my-cluster:op", "--server=https://one.example",
          "--certificate-authority=CA1"],
       ["kubectl", "config", "set-credentials", "my-cluster:op",
          "--exec-command=1password-kubeconfig",
          "--exec-api-version=client.authentication.k8s.io/v1", "--exec-arg=auth",
          "--exec-arg=id1"],
       ["kubectl", "config", "set-context", "my-cluster:op", "--cluster=my-cluster:op",
          "--user=my-cluster:op"],
       ["kubectl", "config", "set-cluster", "prod:op", "--server=https://two.example"],
       ["kubectl", "config", "set-credentials", "prod:op",
          "--exec-command=1password-kubeconfig",
          "--exec-api-version=client.authentication.k8s.io/v1", "--exec-arg=auth",
          "--exec-arg=id2"],
       ["kubectl", "config", "set-context", "prod:op", "--cluster=prod:op", "--user=prod:op"],
       ["kubectl", "config", "set-cluster", "staging:op", "--server=https://three.example"],
       ["kubectl", "config", "set-credentials", "staging:op",
          "--exec-command=1password-kubeconfig",
          "--exec-api-version=client.authentication.k8s.io/v1", "--exec-arg=auth",
          "--exec-arg=id3"],
       ["kubectl", "config", "set-context", "staging:op", "--cluster=staging:op",
          "--user=staging:op"]] :=
  ⟨rfl, by
    rw [(updateLoop_three_upserts_per_record id okKubectl ⟨(), [], ""⟩ sampleRecords rfl).1]
    rfl⟩

/-- C5: `setCredentials` runs exactly one command, `kubectl config set-credentials` for
the user named `ConfigName`, whose settings make it an exec plugin: the command is
`1password-kubeconfig` (the program itself), the API version is
`client.authentication.k8s.io/v1`, and the exec arguments are exactly `auth` and the
record's `Id`, in this order.  It is the second command of every iteration of the
update loop. -/
theorem setCredentials_exec_plugin {W : Type} (uc : Char → Char) (k : Kubectl W)
    (p : Proc W) (r : ConfigSecret) :
    (setCredentials uc k p r).proc.calls = p.calls ++ [setCredentialsArgs uc r] ∧
    (syncArgs uc r).get? 1 = some (setCredentialsArgs uc r) ∧
    (setCredentialsArgs uc r).take 4 =
      ["kubectl", "config", "set-credentials", r.ConfigName uc] ∧
    (setCredentialsArgs uc r).drop 4 =
      ["--exec-command=1password-kubeconfig",
       "--exec-api-version=client.authentication.k8s.io/v1",
       "--exec-arg=auth", "--exec-arg=" ++ r.Id] ∧
    flagValues "--exec-command" ((setCredentialsArgs uc r).drop 4) =
      ["1password-kubeconfig"] ∧
    flagValues "--exec-api-version" ((setCredentialsArgs uc r).drop 4) =
      ["client.authentication.k8s.io/v1"] ∧
    flagValues "--exec-arg" ((setCredentialsArgs uc r).drop 4) = ["auth", r.Id] := by
  have harg : flagValue "--exec-arg" ("--exec-arg=" ++ r.Id) = some r.Id :=
    flagValue_self "--exec-arg" r.Id
  have hcmd : flagValue "--exec-command" ("--exec-arg=" ++ r.Id) = none := by
    simp [flagValue, String.data_append]
  have hver : flagValue "--exec-api-version" ("--exec-arg=" ++ r.Id) = none := by
    simp [flagValue, String.data_append]
  refine ⟨?_, rfl, rfl, rfl, ?_, ?_, ?_⟩
  · rw [setCredentials_eq]
    cases (k.run p.world (setCredentialsArgs uc r)).2 <;> rfl
  · simp only [setCredentialsArgs, List.drop_succ_cons, List.drop_zero, flagValues,
      List.filterMap_cons, List.filterMap_nil, hcmd]
    rfl
  · simp only [setCredentialsArgs, List.drop_succ_cons, List.drop_zero, flagValues,
      List.filterMap_cons, List.filterMap_nil, hver]
    rfl
  · simp only [setCredentialsArgs, List.drop_succ_cons, List.drop_zero, flagValues,
      List.filterMap_cons, List.filterMap_nil, harg]
    rfl

/-- C7: the update loop does not read `ClientCertificate` and `ClientKey`: for two
record sequences that are equal once these two attributes are blanked, and the same
`kubectl`, it ends in the same way, having run the same commands with the same
arguments. -/
theorem updateLoop_ignores_client_material {W : Type} (uc : Char → Char) (k : Kubectl W)
    (p : Proc W) (rs1 rs2 : List ConfigSecret) (h : rs1.map redact = rs2.map redact) :
    updateLoop uc k p rs1 = updateLoop uc k p rs2 := by
  rw [← updateLoop_map_redact uc k rs1 p, ← updateLoop_map_redact uc k rs2 p, h]

/-- Witness for C7: the sample records and the same records with other certificates
and keys. -/
theorem updateLoop_ignores_client_material_witness :
    sampleRecords.map redact = sampleRecordsOtherKeys.map redact ∧
    sampleRecords ≠ sampleRecordsOtherKeys ∧
    updateLoop id okKubectl ⟨(), [], ""⟩ sampleRecords =
      updateLoop id okKubectl ⟨(), [], ""⟩ sampleRecordsOtherKeys :=
  ⟨by decide, by decide,
    updateLoop_ignores_client_material id okKubectl ⟨(), [], ""⟩ _ _ (by decide)⟩

/-- C8: if every command for the records `pre` succeeds and `kubectl` then fails the
`set-cluster` command of the next record `r`, the update loop over `pre ++ r :: post`
ends in `log.Fatalf` having run exactly the three commands of each record of `pre`
and the failed `set-cluster`: no `set-credentials` or `set-context` for `r`, nothing
for `post`.  The world is the one the failed call left; the program runs nothing to
undo earlier writes, so when the failed call changes nothing the world is the one
written for `pre`.  `updateKubeConfig` ends with the same fault and prints nothing. -/
theorem updateLoop_halts_on_cluster_failure {W : Type} (uc : Char → Char) (k : Kubectl W)
    (p : Proc W) (pre : List ConfigSecret) (r : ConfigSecret) (post : List ConfigSecret)
    (err : String)
    (hpre : allSucceed k p.world (syncCalls uc pre) = true)
    (hfail : (k.run (worldAfter k p.world (syncCalls uc pre)) (setClusterArgs uc r)).2 =
      some err) :
    updateLoop uc k p (pre ++ r :: post) =
      .halted (.fatal ("Failed to set cluster: " ++ err))
        ⟨(k.run (worldAfter k p.world (syncCalls uc pre)) (setClusterArgs uc r)).1,
         p.calls ++ syncCalls uc pre ++ [setClusterArgs uc r], p.stdout⟩ ∧
    ((k.run (worldAfter k p.world (syncCalls uc pre)) (setClusterArgs uc r)).1 =
        worldAfter k p.world (syncCalls uc pre) →
      (updateLoop uc k p (pre ++ r :: post)).proc.world =
        worldAfter k p.world (syncCalls uc pre)) ∧
    (∀ (op : Op) (tag : String), findSecretsWithTag uc op tag = .ok (pre ++ r :: post) →
      updateKubeConfig uc op k p tag =
        .halted (.fatal ("Failed to set cluster: " ++ err))
          ⟨(k.run (worldAfter k p.world (syncCalls uc pre)) (setClusterArgs uc r)).1,
           p.calls ++ syncCalls uc pre ++ [setClusterArgs uc r], p.stdout⟩) := by
  have hmain : updateLoop uc k p (pre ++ r :: post) =
      .halted (.fatal ("Failed to set cluster: " ++ err))
        ⟨(k.run (worldAfter k p.world (syncCalls uc pre)) (setClusterArgs uc r)).1,
         p.calls ++ syncCalls uc pre ++ [setClusterArgs uc r], p.stdout⟩ := by
    rw [updateLoop_append, updateLoop_of_allSucceed uc k pre p hpre]
    simp only [updateLoop, setCluster_eq, hfail]
  refine ⟨hmain, ?_, ?_⟩
  · intro hw
    rw [hmain]
    exact hw
  · intro op tag hop
    simp only [updateKubeConfig, hop, hmain]

/-- Witness for C8: three records and a `kubectl` that fails its fourth command, the
`set-cluster` of the second record. -/
theorem updateLoop_halts_on_cluster_failure_witness :
    updateLoop id (failAt 3 "boom") ⟨0, [], ""⟩ sampleRecords =
      .halted (.fatal "Failed to set cluster: boom")
        ⟨4,
         [["kubectl", "config", "set-cluster", "my-cluster:op",
             "--server=https://one.example", "--certificate-authority=CA1"],
          ["kubectl", "config", "set-credentials", "my-cluster:op",
             "--exec-command=1password-kubeconfig",
             "--exec-api-version=client.authentication.k8s.io/v1", "--exec-arg=auth",
             "--exec-arg=id1"],
          ["kubectl", "config", "set-context", "my-cluster:op", "--cluster=my-cluster:op",
             "--user=my-cluster:op"],
          ["kubectl", "config", "set-cluster", "prod:op", "--server=https://two.example"]],
         ""⟩ :=
  (updateLoop_halts_on_cluster_failure id (failAt 3 "boom") ⟨0, [], ""⟩
    [{ Id := "id1", Name := "My Cluster", Server := "https://one.example",
       CertificateAuthority := "CA1", ClientCertificate := "CERT1", ClientKey := "KEY1" }]
    { Id := "id2", Name := "Prod", Server := "https://two.example" }
    [{ Id := "id3", Name := "Staging", Server := "https://three.example" }]
    "boom" rfl rfl).1

/-! ## Idempotence under overwrite semantics -/

theorem foldl_applyWrite_untouched {V : Type} (ws : List (Option (String × V))) :
    ∀ (f : String → V) (n : String), (∀ v, some (n, v) ∉ ws) →
      ws.foldl applyWrite f n = f n := by
  induction ws with
  | nil => intro f n _; rfl
  | cons o rest ih =>
    intro f n h
    simp only [List.foldl_cons]
    rw [ih _ n (fun v hv => h v (List.mem_cons_of_mem _ hv))]
    cases o with
    | none => rfl
    | some w =>
      obtain ⟨m, v⟩ := w
      have hne : n ≠ m := by
        intro e
        subst e
        exact h v (List.mem_cons_self _ _)
      simp [applyWrite, Function.update_noteq hne]

theorem foldl_applyWrite_congr {V : Type} (ws : List (Option (String × V))) :
    ∀ (f g : String → V), (∀ n, (∀ v, some (n, v) ∉ ws) → f n = g n) →
      ws.foldl applyWrite f = ws.foldl applyWrite g := by
  induction ws with
  | nil =>
    intro f g h
    funext n
    exact h n (fun v hv => by cases hv)
  | cons o rest ih =>
    intro f g h
    simp only [List.foldl_cons]
    apply ih
    intro n hn
    cases o with
    | none =>
      apply h n
      intro v hv
      rcases List.mem_cons.mp hv with e | hv1
      · cases e
      · exact hn v hv1
    | some w =>
      obtain ⟨m, v0⟩ := w
      by_cases hnm : n = m
      · subst hnm
        simp [applyWrite]
      · simp only [applyWrite, Function.update_noteq hnm]
        apply h n
        intro v hv
        rcases List.mem_cons.mp hv with e | hv1
        · cases e
          exact hnm rfl
        · exact hn v hv1

/-- Replaying a list of overwrites on its own result changes nothing. -/
theorem foldl_applyWrite_idem {V : Type} (ws : List (Option (String × V))) (f : String → V) :
    ws.foldl applyWrite (ws.foldl applyWrite f) = ws.foldl applyWrite f :=
  foldl_applyWrite_congr ws _ _ (fun n hn => foldl_applyWrite_untouched ws f n hn)

theorem overwriteRun_clusters (cfg : KubeConfig) (args : List String) :
    (overwriteRun cfg args).1.clusters = applyWrite cfg.clusters (writeOf "set-cluster" args) := by
  unfold overwriteRun writeOf
  split
  · split_ifs <;> simp_all [applyWrite]
  · rfl

theorem overwriteRun_users (cfg : KubeConfig) (args : List String) :
    (overwriteRun cfg args).1.users = applyWrite cfg.users (writeOf "set-credentials" args) := by
  unfold overwriteRun writeOf
  split
  · split_ifs <;> simp_all [applyWrite]
  · rfl

theorem overwriteRun_contexts (cfg : KubeConfig) (args : List String) :
    (overwriteRun cfg args).1.contexts = applyWrite cfg.contexts (writeOf "set-context" args) := by
  unfold overwriteRun writeOf
  split
  · split_ifs <;> simp_all [applyWrite]
  · rfl

theorem worldAfter_overwrite (cmds : List (List String)) :
    ∀ cfg : KubeConfig,
      (worldAfter overwriteKubectl cfg cmds).clusters =
        (cmds.map (writeOf "set-cluster")).foldl applyWrite cfg.clusters ∧
      (worldAfter overwriteKubectl cfg cmds).users =
        (cmds.map (writeOf "set-credentials")).foldl applyWrite cfg.users ∧
      (worldAfter overwriteKubectl cfg cmds).contexts =
        (cmds.map (writeOf "set-context")).foldl applyWrite cfg.contexts := by
  induction cmds with
  | nil => intro cfg; exact ⟨rfl, rfl, rfl⟩
  | cons a rest ih =>
    intro cfg
    have h := ih (overwriteRun cfg a).1
    simp only [worldAfter, List.foldl_cons, List.map_cons, overwriteKubectl] at h ⊢
    rw [overwriteRun_clusters, overwriteRun_users, overwriteRun_contexts] at h
    exact h

theorem KubeConfig.eq_of_maps (a b : KubeConfig) (h1 : a.clusters = b.clusters)
    (h2 : a.users = b.users) (h3 : a.contexts = b.contexts) : a = b := by
  cases a
  cases b
  simp only [KubeConfig.mk.injEq]
  exact ⟨h1, h2, h3⟩

/-- Under overwrite semantics, running a command list again on its own result
changes nothing. -/
theorem worldAfter_overwrite_idem (cmds : List (List String)) (cfg : KubeConfig) :
    worldAfter overwriteKubectl (worldAfter overwriteKubectl cfg cmds) cmds =
      worldAfter overwriteKubectl cfg cmds := by
  obtain ⟨a1, a2, a3⟩ := worldAfter_overwrite cmds cfg
  obtain ⟨b1, b2, b3⟩ := worldAfter_overwrite cmds (worldAfter overwriteKubectl cfg cmds)
  apply KubeConfig.eq_of_maps
  · rw [b1, a1, foldl_applyWrite_idem]
  · rw [b2, a2, foldl_applyWrite_idem]
  · rw [b3, a3, foldl_applyWrite_idem]

theorem allSucceed_overwrite (uc : Char → Char) (rs : List ConfigSecret) :
    ∀ cfg : KubeConfig, allSucceed overwriteKubectl cfg (syncCalls uc rs) = true := by
  induction rs with
  | nil => intro cfg; rfl
  | cons r rest ih =>
    intro cfg
    have hc : ∀ c : KubeConfig, (overwriteRun c (setClusterArgs uc r)).2 = none := by
      intro c
      unfold setClusterArgs
      simp only
      split_ifs <;> rfl
    simp only [syncCalls, List.flatMap_cons, syncArgs, List.cons_append, List.nil_append,
      allSucceed, overwriteKubectl, hc, Option.isNone_none, Bool.true_and]
    exact ih _

/-- C9: with the configuration file modelled as three maps from resource name to
entry and every `kubectl config set-...` as an overwrite of the named entry, for every
record sequence (records may share a `Name`) and every starting configuration the
update loop succeeds, succeeds again when run a second time on the configuration it
produced, and the second run leaves that configuration unchanged.  (From the empty
configuration the sample records leave the entry `prod:op` of the cluster map set to
the server setting of the second record.) -/
theorem updateLoop_twice_eq_once (uc : Char → Char) (rs : List ConfigSecret)
    (cfg : KubeConfig) :
    (updateLoop uc overwriteKubectl ⟨cfg, [], ""⟩ rs).fault = none ∧
    (updateLoop uc overwriteKubectl
      ⟨(updateLoop uc overwriteKubectl ⟨cfg, [], ""⟩ rs).proc.world, [], ""⟩ rs).fault = none ∧
    (updateLoop uc overwriteKubectl
      ⟨(updateLoop uc overwriteKubectl ⟨cfg, [], ""⟩ rs).proc.world, [], ""⟩ rs).proc.world =
      (updateLoop uc overwriteKubectl ⟨cfg, [], ""⟩ rs).proc.world ∧
    (updateLoop uc overwriteKubectl ⟨emptyConfig, [], ""⟩ sampleRecords).proc.world.clusters
      "prod:op" = some ["--server=https://two.example"] := by
  have h1 := updateLoop_of_allSucceed uc overwriteKubectl rs ⟨cfg, [], ""⟩
    (allSucceed_overwrite uc rs cfg)
  have h2 := updateLoop_of_allSucceed uc overwriteKubectl rs
    ⟨worldAfter overwriteKubectl cfg (syncCalls uc rs), [], ""⟩
    (allSucceed_overwrite uc rs _)
  simp only at h1 h2
  rw [h1]
  simp only [Result.proc, Result.fault]
  rw [h2]
  simp only [Result.proc, Result.fault]
  exact ⟨trivial, trivial, worldAfter_overwrite_idem _ _, rfl⟩

/-! ## The auth flow -/

theorem flatMap_jsonEscape_plain (l : List Char) (h : l.all jsonSafe = true) :
    l.flatMap jsonEscape = l := by
  induction l with
  | nil => rfl
  | cons c rest ih =>
    simp only [List.all_cons, Bool.and_eq_true] at h
    simp only [List.flatMap_cons, jsonEscape, h.1, if_true, ih h.2]
    rfl

/-- A string of runes that need no escaping is written between two double quotes,
unchanged. -/
theorem jsonString_plain (s : String) (h : jsonPlain s = true) :
    jsonString s = "\"" ++ s ++ "\"" := by
  unfold jsonString
  rw [flatMap_jsonEscape_plain s.data h]
  rfl

/-- C6: when `op` returns a record whose normalised client certificate `c` and client
key `k` hold only runes that `encoding/json` writes unescaped, `authCommand` returns
(no fault) having written to standard output exactly one line, the document
`{"apiVersion":"client.authentication.k8s.io/v1","kind":"ExecCredential","status":{"clientCertificateData":"c","clientKeyData":"k"}}`
with `c` and `k` verbatim, these keys in this order and no other field.  The empty
string qualifies, so an absent certificate or key gives the same envelope with empty
data fields. -/
theorem authCommand_envelope {W : Type} (uc : Char → Char) (op : Op) (p : Proc W)
    (secretName : String) (s : Secret) (r : ConfigSecret)
    (hget : op.itemGet secretName = .ok s)
    (hnorm : s.ConfigSecret uc = .ok r)
    (hc : jsonPlain r.ClientCertificate = true)
    (hk : jsonPlain r.ClientKey = true) :
    authCommand uc op p secretName =
      .done { p with stdout := p.stdout ++
        ("\x7b\"apiVersion\":\"client.authentication.k8s.io/v1\",\"kind\":\"ExecCredential\"," ++
         "\"status\":\x7b\"clientCertificateData\":\"" ++ r.ClientCertificate ++
         "\",\"clientKeyData\":\"" ++ r.ClientKey ++ "\"\x7d\x7d") ++ "\n" } := by
  have hs : getSecretByName uc op secretName = .ok r := by
    simp only [getSecretByName, hget, hnorm]
  simp only [authCommand, hs, marshalExecCredential, marshalClientCertificate,
    jsonString_plain _ hc, jsonString_plain _ hk]
  have h1 : jsonString "client.authentication.k8s.io/v1" =
      "\"client.authentication.k8s.io/v1\"" := rfl
  have h2 : jsonString "ExecCredential" = "\"ExecCredential\"" := rfl
  rw [h1, h2]
  congr 2
  congr 1
  apply String.ext
  simp only [String.data_append, List.append_assoc]
  rfl

/-- Witness for C6: certificate "CERTDATA" and key "KEYDATA" under the identifier
"abc123". -/
theorem authCommand_envelope_witness :
    authCommand id (fixedOp [prodSecret]) (⟨(), [], ""⟩ : Proc Unit) "abc123" =
      .done ⟨(), [],
        "\x7b\"apiVersion\":\"client.authentication.k8s.io/v1\",\"kind\":\"ExecCredential\",\"status\":\x7b\"clientCertificateData\":\"CERTDATA\",\"clientKeyData\":\"KEYDATA\"\x7d\x7d\n"⟩ :=
  authCommand_envelope id (fixedOp [prodSecret]) ⟨(), [], ""⟩ "abc123" prodSecret
    { Server := "https://prod.example", ClientCertificate := "CERTDATA", ClientKey := "KEYDATA" }
    rfl rfl rfl rfl

end OpKubeconfig
